import Mathlib

/-!
Shallow embedding of the godef definition-resolution core:
the generic LRU container (`lru` package), the file/directory caches
(`cache` package), and the resolution coordinator (`definition` and its
helpers in the `godef` package), together with theorems checking the
natural-language specification against this embedding.

Machine integers (Go `int`, `int64`) are modelled as `Int`; byte slices as
`List Nat`; `time.Time` values as `Int` (only `Equal`/`After` comparisons are
used by the code). Nil-pointer dereferences are modelled by an explicit
`Option`/outcome constructor. External effects (disk reads, `os.Stat`,
the Go parser and type checker) are supplied as explicit oracle inputs,
mirroring the exact control flow of the source around them.
-/

namespace lru

/-- One cache: the recency list `ll` (front = most recently used) paired with
the listener-visible state of the wrapping type (e.g. the running byte total
`File.size` that the file cache's listeners maintain). The Go code keeps a
`map` and a linked list in sync; both are represented by the single
association list `entries`, whose keys are unique by construction. -/
structure Cache (K V E : Type) where
  entries : List (K × V)
  ext : E
deriving DecidableEq

/-- The three function-valued fields of `lru.Cache`: `MaxEntries`,
`OnAdded`, `OnEvicted`. `none` models a nil Go function field. -/
structure Config (K V E : Type) where
  maxEntries : Option (Cache K V E → Bool)
  onAdded : Option (E → K → V → E)
  onEvicted : Option (E → K → V → E)

/-- Invoke an optional listener, as Go's `if c.OnAdded != nil { c.OnAdded(...) }`. -/
def callListener {K V E : Type} (f : Option (E → K → V → E)) (e : E) (k : K) (v : V) : E :=
  match f with
  | none => e
  | some g => g e k v

/-- Map lookup `c.cache[key]`, reading the value stored at `key`. -/
def lookupVal {K V : Type} [DecidableEq K] (k : K) : List (K × V) → Option V
  | [] => none
  | (k', v) :: rest => if k' = k then some v else lookupVal k rest

/-- Unlink the entry holding `k` from the recency list (`c.ll.Remove` plus
`delete(c.cache, key)`); keys are unique so the first occurrence is the entry. -/
def eraseKey {K V : Type} [DecidableEq K] (k : K) : List (K × V) → List (K × V)
  | [] => []
  | (k', v) :: rest => if k' = k then rest else (k', v) :: eraseKey k rest

/-- `c.ll.MoveToFront(ee)` for the element holding `k`. -/
def moveToFront {K V : Type} [DecidableEq K] (k : K) (l : List (K × V)) : List (K × V) :=
  match lookupVal k l with
  | none => l
  | some v => (k, v) :: eraseKey k l

/-- `ee.Value.(*entry).value = value`: overwrite the value stored at `k`. -/
def setFirstValue {K V : Type} [DecidableEq K] (k : K) (v : V) : List (K × V) → List (K × V)
  | [] => []
  | (k', v') :: rest => if k' = k then (k, v) :: rest else (k', v') :: setFirstValue k v rest

/-- `Cache.RemoveOldest`: `removeElement` applied to `c.ll.Back()`, i.e. unlink
the last list node and fire `OnEvicted` for it; a nil back node is a no-op. -/
def RemoveOldest {K V E : Type} (cfg : Config K V E) (c : Cache K V E) : Cache K V E :=
  match c.entries.getLast? with
  | none => c
  | some kv =>
    { entries := c.entries.dropLast,
      ext := callListener cfg.onEvicted c.ext kv.1 kv.2 }

/-- `Cache.Remove`: `removeElement` for the entry holding `key`, if present. -/
def Remove {K V E : Type} [DecidableEq K] (cfg : Config K V E) (c : Cache K V E) (k : K) :
    Cache K V E :=
  match lookupVal k c.entries with
  | none => c
  | some v =>
    { entries := eraseKey k c.entries,
      ext := callListener cfg.onEvicted c.ext k v }

/-- `Cache.Get`: look up and promote to most recently used. -/
def Get {K V E : Type} [DecidableEq K] (c : Cache K V E) (k : K) :
    Option V × Cache K V E :=
  match lookupVal k c.entries with
  | some v => (some v, { c with entries := moveToFront k c.entries })
  | none => (none, c)

/-- The eviction loop at the end of `Cache.Add`:
`for c.MaxEntries(c) && c.ll.Len() > 0 { c.RemoveOldest() }`. -/
def evictLoop {K V E : Type} (cfg : Config K V E) (pred : Cache K V E → Bool)
    (c : Cache K V E) : Cache K V E :=
  if h : pred c = true ∧ 0 < c.entries.length then
    evictLoop cfg pred (RemoveOldest cfg c)
  else c
termination_by c.entries.length
decreasing_by
  unfold RemoveOldest
  rcases h with ⟨-, hlen⟩
  rcases hc : c.entries.getLast? with - | kv
  · rw [List.getLast?_eq_none_iff] at hc
    simp [hc] at hlen
  · simp only [List.length_dropLast]
    omega

/-- `Cache.Add`. An existing key is promoted, its listeners fired and its value
replaced, and the call returns; a new key is pushed to the front and then, if
the bound predicate `MaxEntries` is configured and holds, the oldest entry is
evicted and the eviction loop runs. -/
def Add {K V E : Type} [DecidableEq K] (cfg : Config K V E) (c : Cache K V E)
    (k : K) (v : V) : Cache K V E :=
  match lookupVal k c.entries with
  | some old =>
    let moved := moveToFront k c.entries
    let e1 := callListener cfg.onEvicted c.ext k old
    let e2 := callListener cfg.onAdded e1 k v
    { entries := setFirstValue k v moved, ext := e2 }
  | none =>
    let e1 := callListener cfg.onAdded c.ext k v
    let c1 : Cache K V E := { entries := (k, v) :: c.entries, ext := e1 }
    match cfg.maxEntries with
    | none => c1
    | some pred =>
      if pred c1 then evictLoop cfg pred (RemoveOldest cfg c1) else c1

/-- `Cache.Len`. -/
def Len {K V E : Type} (c : Cache K V E) : Nat := c.entries.length

end lru

namespace cache

/-- Error values crossing the cache API: `io.EOF`, `io.ErrShortWrite` and
arbitrary other `error` values carried as messages. -/
inductive IOErr
  | eof
  | shortWrite
  | msg (s : String)
deriving DecidableEq

/-- The fields of an `os.FileInfo` the file cache reads on stat results:
`Size()` and `ModTime()`. -/
structure FileInfo where
  size : Int
  modTime : Int
deriving DecidableEq

/-- `cache.fileEntry`. -/
structure fileEntry where
  data : List Nat
  modTime : Int
  size : Int
deriving DecidableEq

/-- `fileEntry.same`: `fi != nil && f.size == fi.Size() && f.modTime.Equal(fi.ModTime())`.
The argument is `Option FileInfo` because callers pass the possibly-nil result
of a failed stat. -/
def fileEntry.same (f : fileEntry) (fi : Option FileInfo) : Bool :=
  match fi with
  | none => false
  | some fi => decide (f.size = fi.size) && decide (f.modTime = fi.modTime)

/-- `File.maxEntries` (src/cache/file.go): `c.entries > 0 && c.size >= c.entries`.
The field `entries` is the configured byte ceiling; the field `size` is the
running total maintained by the listeners, modelled as the lru cache's `ext`. -/
def File.maxEntries (entries : Int) (c : lru.Cache String fileEntry Int) : Bool :=
  decide (0 < entries) && decide (entries ≤ c.ext)

/-- `File.onAdded`: `c.size += value.(*fileEntry).size`. -/
def File.onAdded (e : Int) (_ : String) (v : fileEntry) : Int := e + v.size

/-- `File.onEvicted`: `c.size -= value.(*fileEntry).size`. -/
def File.onEvicted (e : Int) (_ : String) (v : fileEntry) : Int := e - v.size

/-- `File.lazyInit`: install the bound predicate and both listeners when
`c.size > 0 || c.entries > 0` and nothing is installed yet; `size0` is the
initial value of the `size` field set by `NewFile`. -/
def File.lruConfig (size0 entries : Int) : lru.Config String fileEntry Int :=
  if 0 < size0 ∨ 0 < entries then
    { maxEntries := some (File.maxEntries entries),
      onAdded := some (File.onAdded),
      onEvicted := some (File.onEvicted) }
  else
    { maxEntries := none, onAdded := none, onEvicted := none }

/-- The locked tail of `File.readFile` (after the unlocked disk read produced
bytes `b` and stat result `fi`): re-check under the lock whether a newer entry
was added concurrently — `e.modTime.After(modTime)` keeps the existing entry —
otherwise `Add` the freshly read one. Returns the updated cache and the bytes
the returned reader is built over. -/
def File.readFileCommit (cfg : lru.Config String fileEntry Int)
    (c : lru.Cache String fileEntry Int) (path : String) (b : List Nat)
    (fi : FileInfo) : lru.Cache String fileEntry Int × List Nat :=
  let g := lru.Get c path
  match g.1 with
  | some e =>
    if fi.modTime < e.modTime then
      (g.2, e.data)
    else
      (lru.Add cfg g.2 path { data := b, modTime := fi.modTime, size := fi.size }, b)
  | none =>
    (lru.Add cfg g.2 path { data := b, modTime := fi.modTime, size := fi.size }, b)

/-- The filesystem interactions of one `File.readFile` call, supplied as
oracles: `os.Open`, `f.Stat`, and the full read (`readAll`). -/
structure ReadFs where
  openErr : Option IOErr
  statRes : Except IOErr FileInfo
  readRes : Except IOErr (List Nat)

/-- `File.readFile`. `none` models a panic: when `f.Stat()` failed, `fi` is nil
and `fi.ModTime()` dereferences it (the stat error is only consulted for the
buffer preallocation, which has no observable effect here). -/
def File.readFile (cfg : lru.Config String fileEntry Int)
    (c : lru.Cache String fileEntry Int) (path : String) (rfs : ReadFs) :
    Option (lru.Cache String fileEntry Int × Except IOErr (List Nat)) :=
  match rfs.openErr with
  | some e => some (c, .error e)
  | none =>
    match rfs.readRes with
    | .error e => some (c, .error e)
    | .ok b =>
      match rfs.statRes with
      | .error _ => none
      | .ok fi =>
        let p := File.readFileCommit cfg c path b fi
        some (p.1, .ok p.2)

/-- `File.OpenFile`: on a hit, stat and compare with `fileEntry.same` (which
guards against a nil stat result); on mismatch evict, then propagate a stat
error or reload. `stat` is the oracle for `fs.Stat(path)`. -/
def File.OpenFile (cfg : lru.Config String fileEntry Int)
    (c : lru.Cache String fileEntry Int) (path : String)
    (stat : Except IOErr FileInfo) (rfs : ReadFs) :
    Option (lru.Cache String fileEntry Int × Except IOErr (List Nat)) :=
  let g := lru.Get c path
  match g.1 with
  | some e =>
    let fi : Option FileInfo := match stat with | .ok fi => some fi | .error _ => none
    if e.same fi then
      some (g.2, .ok e.data)
    else
      let c2 := lru.Remove cfg g.2 path
      match stat with
      | .error err => some (c2, .error err)
      | .ok _ => File.readFile cfg c2 path rfs
  | none => File.readFile cfg c path rfs

/-- `cache.reader`: an independent read cursor over a shared byte buffer. -/
structure reader where
  s : List Nat
  i : Int
deriving DecidableEq

/-- Result of `reader.WriteTo`: the returned `(n, err)` pair, or the panic
raised when the destination writer reports more bytes written than given. -/
inductive WriteOutcome
  | panicked
  | ret (n : Int) (err : Option IOErr)
deriving DecidableEq

/-- `reader.WriteTo`. The destination writer's behaviour is the oracle pair
`(m, werr)`: the count and error its `Write(b)` call returns. The code
computes `n = int64(m)` and an `io.ErrShortWrite` error for short writes, but
its final statement `return -1, nil` discards both; only the cursor advance
`r.i += int64(m)` survives. -/
def reader.WriteTo (r : reader) (m : Nat) (werr : Option IOErr) : reader × WriteOutcome :=
  if (r.s.length : Int) ≤ r.i then
    (r, .ret 0 none)
  else
    let b := r.s.drop r.i.toNat
    if b.length < m then
      (r, .panicked)
    else
      let r' : reader := { r with i := r.i + (m : Int) }
      let _n : Int := (m : Int)
      let _e : Option IOErr := if m ≠ b.length ∧ werr = none then some .shortWrite else werr
      -- `_n` and `_e` are dead: the function returns `-1, nil` unconditionally here
      (r', .ret (-1) none)

/-- `cache.fileInfo`, the trimmed `os.FileInfo` the directory cache stores:
only `Name()` and `IsDir()` are implemented. -/
structure fileInfo where
  name : String
  isDir : Bool
deriving DecidableEq

/-- `cache.dirEntry`. -/
structure dirEntry where
  ents : List fileInfo
  modTime : Int
deriving DecidableEq

/-- `Dir.maxEntries`: `d.maxSize > 0 && d.cache.Len() > d.maxSize`. -/
def Dir.maxEntries (maxSize : Int) (c : lru.Cache String dirEntry Unit) : Bool :=
  decide (0 < maxSize) && decide (maxSize < (c.entries.length : Int))

/-- `Dir.lazyInit`: the bound predicate is installed only when `maxSize > 0`;
the directory cache has no listeners. -/
def Dir.lruConfig (maxSize : Int) : lru.Config String dirEntry Unit :=
  if 0 < maxSize then
    { maxEntries := some (Dir.maxEntries maxSize), onAdded := none, onEvicted := none }
  else
    { maxEntries := none, onAdded := none, onEvicted := none }

/-- Result of one `fs.Lstat` call inside `readdir`: success, a not-exist
error (`os.IsNotExist`), or any other error. -/
inductive LstatRes
  | ok (fi : fileInfo)
  | notExist
  | err (e : IOErr)

/-- The per-child stat loop of `readdir`: a child that vanished between
enumeration and stat is silently skipped; any other stat error aborts,
returning the entries collected so far together with that error. -/
def readdirLoop (lstat : String → LstatRes) :
    List String → List fileInfo → List fileInfo × Option IOErr
  | [], acc => (acc, none)
  | name :: rest, acc =>
    match lstat name with
    | .ok fi => readdirLoop lstat rest (acc ++ [fi])
    | .notExist => readdirLoop lstat rest acc
    | .err e => (acc, some e)

/-- `readdir` (unix variant): `Readdirnames` yields `names` with error
`rdErr`; after the stat loop, an empty result with a nil error is turned into
`io.EOF` — `if len(fi) == 0 && err == nil { err = io.EOF }`. -/
def readdir (names : List String) (rdErr : Option IOErr) (lstat : String → LstatRes) :
    List fileInfo × Option IOErr :=
  let p := readdirLoop lstat names []
  match p.2 with
  | some e => (p.1, some e)
  | none =>
    if p.1.length = 0 ∧ rdErr = none then (p.1, some .eof) else (p.1, rdErr)

/-- The filesystem interactions of one `Dir.readDir` call: `os.Open`,
`f.Stat`, `Readdirnames`, and the per-child `fs.Lstat`. -/
structure DirFs where
  openErr : Option IOErr
  statRes : Except IOErr FileInfo
  names : List String
  namesErr : Option IOErr
  lstat : String → LstatRes

/-- `Dir.readDir`: open, stat, enumerate (errors propagate, dropping the
listing), then under the lock keep a concurrently inserted newer entry
(`e.modTime.After(modTime)`) or `Add` the fresh listing. -/
def Dir.readDir (cfg : lru.Config String dirEntry Unit)
    (c : lru.Cache String dirEntry Unit) (fs : DirFs) (path : String) :
    lru.Cache String dirEntry Unit × Except IOErr (List fileInfo) :=
  match fs.openErr with
  | some e => (c, .error e)
  | none =>
    match fs.statRes with
    | .error e => (c, .error e)
    | .ok fi =>
      let p := readdir fs.names fs.namesErr fs.lstat
      match p.2 with
      | some e => (c, .error e)
      | none =>
        let modTime := fi.modTime
        let g := lru.Get c path
        match g.1 with
        | some e =>
          if modTime < e.modTime then
            (g.2, .ok e.ents)
          else
            (lru.Add cfg g.2 path { ents := p.1, modTime := modTime }, .ok p.1)
        | none =>
          (lru.Add cfg g.2 path { ents := p.1, modTime := modTime }, .ok p.1)

/-- `Dir.ReadDir`. `stat` is the oracle for the `os.Stat(path)` on the hit
path. `none` models the panic on that path: when the stat fails, `fi` is nil
and `e.modTime.Equal(fi.ModTime())` dereferences it before the error is ever
examined. On a modTime mismatch the entry is evicted and, since the stat
succeeded, control falls through to `readDir`. -/
def Dir.ReadDir (cfg : lru.Config String dirEntry Unit)
    (c : lru.Cache String dirEntry Unit) (path : String)
    (stat : Except IOErr FileInfo) (fs : DirFs) :
    Option (lru.Cache String dirEntry Unit × Except IOErr (List fileInfo)) :=
  let g := lru.Get c path
  match g.1 with
  | some e =>
    match stat with
    | .error _ => none
    | .ok fi =>
      if e.modTime = fi.modTime then
        some (g.2, .ok e.ents)
      else
        let c2 := lru.Remove cfg g.2 path
        some (Dir.readDir cfg c2 fs path)
  | none => some (Dir.readDir cfg c fs path)

end cache

namespace godef

/-- The size in bytes `utf8.DecodeRune` reports for a sequence starting with
this leading byte (well-formed sequences; a stray continuation or invalid
byte is consumed as a single byte, matching Go's behaviour). -/
def runeLen (b : Nat) : Nat :=
  if b < 0x80 then 1
  else if b < 0xC0 then 1
  else if b < 0xE0 then 2
  else if b < 0xF0 then 3
  else if b < 0xF8 then 4
  else 1

/-- `stringOffset` (the character-offset → byte-offset walk): Go's
`for i := range src` visits exactly the byte indices where runes start, so the
function returns the byte index of the `off`-th rune, or `-1` when the string
has at most `off` runes. Recursion is by runes, accumulating each rune's byte
length, which is the same walk. -/
def stringOffset (src : List Nat) (off : Nat) : Int :=
  match off, src with
  | _, [] => -1
  | 0, _ :: _ => 0
  | o + 1, b :: rest =>
    let n := runeLen b
    let r := stringOffset (rest.drop (n - 1)) o
    if r < 0 then -1 else r + (n : Int)

/-- `byteOffset`: identical walk over a byte slice via `utf8.DecodeRune`. -/
def byteOffset (src : List Nat) (off : Nat) : Int :=
  match off, src with
  | _, [] => -1
  | 0, _ :: _ => 0
  | o + 1, b :: rest =>
    let n := runeLen b
    let r := byteOffset (rest.drop (n - 1)) o
    if r < 0 then -1 else r + (n : Int)

/-- The `src interface{}` argument of `readSourceOffset`: a byte slice, a
string (its UTF-8 bytes), nil (read the file from disk), or any other type. -/
inductive Source
  | bytes (b : List Nat)
  | str (s : List Nat)
  | fromFile
  | invalid

/-- `readSourceOffset` (godef.go). `fileContent` is the oracle for
`ioutil.ReadFile(filename)` in the nil-source case. Returns `(b, n, err)`.
Note the guard `if cursor < len(b)` runs whenever no error occurred and `n`
is still 0, and its else branch rejects `cursor >= len(b)` — in particular a
cursor equal to the unit's byte length — with "offset out of range". -/
def readSourceOffset (fileContent : Except String (List Nat)) (cursor : Int)
    (src : Source) : List Nat × Int × Option String :=
  if cursor < 0 then
    ([], -1, some "non-positive offset")
  else
    let st : List Nat × Int × Option String :=
      match src with
      | .bytes b => (b, 0, none)
      | .str s =>
        if cursor < (s.length : Int) then (s, stringOffset s cursor.toNat, none)
        else ([], 0, none)
      | .fromFile =>
        match fileContent with
        | .ok b => (b, 0, none)
        | .error e => ([], 0, some e)
      | .invalid => ([], 0, some "invalid source")
    match st with
    | (b, n, err) =>
      if err = none ∧ n = 0 then
        if cursor < (b.length : Int) then (b, byteOffset b cursor.toNat, none)
        else (b, 0, some "offset out of range")
      else (b, n, err)

/-- `fileOffsetToPos`: range-check `[start..end]` inclusively against the
file's byte size and translate to `token.Pos` form (`file.Pos(offset)` is
`base + offset` for the file's base). -/
def fileOffsetToPos (base size : Int) (startOffset endOffset : Int) :
    Except String (Int × Int) :=
  if 0 ≤ startOffset ∧ startOffset ≤ size then
    if 0 ≤ endOffset ∧ endOffset ≤ size then
      .ok (base + startOffset, base + endOffset)
    else
      .error "end position is beyond end of file"
  else
    .error "start position is beyond end of file"

/-- An `ast.Object` / `types.Object` as the resolver consumes them: a kind
string, a name, and a declaration position (`0` = `token.NoPos`, so
`Pos().IsValid()` is `pos ≠ 0`). -/
structure Object where
  kind : String
  name : String
  pos : Nat
deriving DecidableEq

/-- An `*ast.Ident`: its name and the parser's local resolution `id.Obj`
(nil when the single-file parser found no local declaration). Structural
equality models Go pointer equality: within one query path each source
occurrence is a distinct node, and the checks compare a node with itself. -/
structure Ident where
  name : String
  obj : Option Object
deriving DecidableEq

/-- An `*ast.ImportSpec`: optional local name and the quoted path literal. -/
structure ImportSpec where
  localName : Option String
  pathValue : String
deriving DecidableEq

/-- The `ast.Node` constructors `packageForQualIdent` discriminates on:
identifiers, selector expressions, the enclosing `*ast.File` (carrying its
imports), and everything else. -/
inductive Node
  | ident (i : Ident)
  | selector (x : Node) (sel : Ident)
  | file (imports : List ImportSpec)
  | other

/-- `ast.IsExported`: whether the name starts with an upper-case letter
(`unicode.IsUpper` of the first rune; ASCII suffices for this model). -/
def isExported (name : String) : Bool :=
  match name.data with
  | [] => false
  | c :: _ => c.isUpper

/-- `path.Base` (package `path`): the last element of a slash-separated path;
trailing slashes are stripped first; "" gives ".", all-slashes gives "/". -/
def pathBase (p : String) : String :=
  if p = "" then "."
  else
    let stripped := (p.data.reverse.dropWhile (fun c => c = '/')).reverse
    if stripped = [] then "/"
    else String.mk ((stripped.reverse.takeWhile (fun c => c ≠ '/')).reverse)

/-- `strconv.Unquote` restricted to escape-free double-quoted literals, the
form the parser produces for import paths; the Go code discards the error,
leaving "" when unquoting fails. -/
def unquoteImport (s : String) : String :=
  match s.data with
  | '"' :: rest =>
    if rest.getLast? = some '"' then String.mk rest.dropLast else ""
  | _ => ""

/-- The import-scanning loop of `packageForQualIdent`: a renaming import
matches on its local name, an ordinary import on the base of its path; the
first match wins. -/
def findImport (pkgName : String) : List ImportSpec → String
  | [] => ""
  | imp :: rest =>
    let path := unquoteImport imp.pathValue
    match imp.localName with
    | some n => if n = pkgName then path else findImport pkgName rest
    | none => if pathBase path = pkgName then path else findImport pkgName rest

/-- `packageForQualIdent`: returns the import path `p` when `id` is `X` in a
qualified identifier `p.X`, i.e. the enclosing node is a selector whose `Sel`
is `id`, `id` is exported, the selector's `X` is an identifier with no local
object, and that identifier names an import of the file at the end of the
path (Go type-asserts that last node to `*ast.File`; the paths produced by
`PathEnclosingInterval` always end in one, so the non-file case is
unreachable and modelled as ""). -/
def packageForQualIdent (path : List Node) (id : Ident) : String :=
  match path.get? 1 with
  | some (.selector x sel) =>
    if sel = id ∧ isExported id.name then
      match x with
      | .ident pkgid =>
        if pkgid.obj = none then
          match path.getLast? with
          | some (.file imports) => findImport pkgid.name imports
          | _ => ""
        else ""
      | _ => ""
    else ""
  | _ => ""

/-- The subset of `token.Token` values `findPackageMember` produces. -/
inductive Tok
  | con
  | var
  | typ
  | fn
  | illegal
deriving DecidableEq

/-- `token.Token.String` for those values. -/
def tokString : Tok → String
  | .con => "const"
  | .var => "var"
  | .typ => "type"
  | .fn => "func"
  | .illegal => "ILLEGAL"

/-- The `ast.Spec` shapes scanned inside a `GenDecl`: `ValueSpec` (const or
var names, with positions), `TypeSpec`, or others (imports). -/
inductive GoSpec
  | valueSpec (names : List (String × Nat))
  | typeSpec (name : String) (pos : Nat)
  | otherSpec

/-- Top-level declarations of a parsed file: `GenDecl` with its token and
specs, `FuncDecl` with receiver presence, name and position, or others. -/
inductive GoDecl
  | genDecl (tok : Tok) (specs : List GoSpec)
  | funcDecl (hasRecv : Bool) (name : String) (pos : Nat)
  | badDecl

/-- The inner spec scan of a worker: first `ValueSpec` name or `TypeSpec`
named `member` wins; a `TypeSpec` always reports `token.TYPE`. -/
def findInSpecs (tok : Tok) (member : String) : List GoSpec → Option (Tok × Nat)
  | [] => none
  | .valueSpec names :: rest =>
    match names.find? (fun p => decide (p.1 = member)) with
    | some p => some (tok, p.2)
    | none => findInSpecs tok member rest
  | .typeSpec name pos :: rest =>
    if name = member then some (.typ, pos) else findInSpecs tok member rest
  | .otherSpec :: rest => findInSpecs tok member rest

/-- The declaration scan of a worker: package-level `GenDecl` specs and
receiver-less `FuncDecl`s named `member`. -/
def findInDecls (member : String) : List GoDecl → Option (Tok × Nat)
  | [] => none
  | .genDecl tok specs :: rest =>
    match findInSpecs tok member specs with
    | some r => some r
    | none => findInDecls member rest
  | .funcDecl hasRecv name pos :: rest =>
    if hasRecv = false ∧ name = member then some (.fn, pos)
    else findInDecls member rest
  | .badDecl :: rest => findInDecls member rest

/-- What one spawned goroutine of `findPackageMember` observes: whether its
`select` saw the `done` channel close before a gate slot was free, and the
file the parser produced for it (`none` when `ParseFile` returned no file). -/
structure WorkerInput where
  cancelledBeforeGate : Bool
  parsed : Option (List GoDecl)

/-- The sequence of values one worker sends on the result channel `ch`,
following the goroutine body: a cancelled worker sends nil and returns; a
failed parse sends nil; a found member sends the result; otherwise the final
`ch <- nil` runs. -/
def workerSends (w : WorkerInput) (member : String) : List (Option (Tok × Nat)) :=
  if w.cancelledBeforeGate then [none]
  else
    match w.parsed with
    | none => [none]
    | some decls =>
      match findInDecls member decls with
      | some r => [some r]
      | none => [none]

/-- The collection loop of `findPackageMember` over the stream of messages in
arrival order, bounded by `len(bp.GoFiles)` iterations: stop at the first
non-nil result. The value is `none` when a receive would block (no message
available), and otherwise carries the loop's result and how many receives it
performed. -/
def collect : List (Option (Tok × Nat)) → Nat → Option (Option (Tok × Nat) × Nat)
  | _, 0 => some (none, 0)
  | [], _ + 1 => none
  | m :: rest, bound + 1 =>
    match m with
    | some r => some (some r, 1)
    | none =>
      match collect rest bound with
      | some p => some (p.1, p.2 + 1)
      | none => none

end godef

namespace godef

/-- Errors the `definition` coordinator produces: the two parser-tier
failures, the two type-checker-tier failures, and errors surfaced from the
oracles (query parsing, `ctxt.Import`, the loader, `findPackageMember`). -/
inductive DefErr
  | noIdentifier
  | noObject
  | builtin (name : String)
  | other (msg : String)
deriving DecidableEq

/-- A `definitionResult`: declaration position and descriptive label. -/
structure DefinitionResult where
  pos : Nat
  descr : String
deriving DecidableEq

/-- The `queryPos` produced by `fastQueryPos`: the AST path from the query
node to the file root (its type info is nil on the fast path). -/
structure FastQPos where
  path : List Node

/-- The `queryPos` produced by `parseQueryPos` after loading: the AST path
plus the type checker's per-identifier binding tables `info.Uses` and
`info.Defs`. -/
structure TCQPos where
  path : List Node
  uses : List (Ident × Object)
  defs : List (Ident × Object)

/-- The external-effect oracles one `definition` call consumes, in the order
the code would invoke them: `fastQueryPos`, `findPackageMember` (tier 2),
and the type-checker tier's `importQueryPackage`, `lconf.Load`, and
`parseQueryPos`. -/
structure DefEnv where
  fastQueryPos : Except DefErr FastQPos
  findPackageMember : Except DefErr (Tok × Nat)
  importQueryPackage : Except DefErr String
  load : Except DefErr Unit
  parseQueryPos : Except DefErr TCQPos

/-- `qpos.path[0].(*ast.Ident)`: the queried node, when it is an identifier. -/
def pathHeadIdent : List Node → Option Ident
  | .ident i :: _ => some i
  | _ => none

/-- `types.ObjectString` as the spec describes the label: `<kind> <name>`
relative to the queried package (external frontend formatting). -/
def objectString (o : Object) : String :=
  o.kind ++ " " ++ o.name

/-- The binding lookup of the type-checker tier (definition, lines 146-168):
`info.Uses[id]` first, `info.Defs[id]` only when no use binding exists,
"no object for identifier" when neither binds, and "`name` is built in" when
the bound object's position is invalid (a predeclared entity). -/
def lookupIdentObj (uses defs : List (Ident × Object)) (id : Ident) :
    Except DefErr DefinitionResult :=
  let obj :=
    match lru.lookupVal id uses with
    | some o => some o
    | none => lru.lookupVal id defs
  match obj with
  | none => .error .noObject
  | some o =>
    if o.pos = 0 then .error (.builtin o.name)
    else .ok { pos := o.pos, descr := objectString o }

/-- The type-checker fallback of `definition`: configure and import the query
package, load the program, locate the query node, then look up its binding. -/
def typeCheckTier (env : DefEnv) : Except DefErr DefinitionResult :=
  match env.importQueryPackage with
  | .error e => .error e
  | .ok _ =>
    match env.load with
    | .error e => .error e
    | .ok _ =>
      match env.parseQueryPos with
      | .error e => .error e
      | .ok qpos =>
        match pathHeadIdent qpos.path with
        | none => .error .noIdentifier
        | some id => lookupIdentObj qpos.uses qpos.defs id

/-- The qualified-identifier branch of `definition`: when
`packageForQualIdent` recognises the shape, call `findPackageMember` and
return its result — its error is returned directly, so the type-checker
fallback runs only when the shape is not recognised. -/
def tryQualIdent (env : DefEnv) (qpos : FastQPos) (id : Ident) :
    Except DefErr DefinitionResult :=
  let pkg := packageForQualIdent qpos.path id
  if pkg ≠ "" then
    match env.findPackageMember with
    | .error e => .error e
    | .ok r => .ok { pos := r.2, descr := tokString r.1 ++ " " ++ pkg ++ "." ++ id.name }
  else typeCheckTier env

/-- `definition`: the resolution coordinator. Fast path first (parser-local
object with a valid position), then the qualified-identifier branch, then the
type checker; a failed query parse or a non-identifier query node is returned
as an error immediately. -/
def definition (env : DefEnv) : Except DefErr DefinitionResult :=
  match env.fastQueryPos with
  | .error e => .error e
  | .ok qpos =>
    match pathHeadIdent qpos.path with
    | none => .error .noIdentifier
    | some id =>
      match id.obj with
      | some obj =>
        if obj.pos ≠ 0 then
          .ok { pos := obj.pos, descr := obj.kind ++ " " ++ obj.name }
        else tryQualIdent env qpos id
      | none => tryQualIdent env qpos id

/-- `Config.Define` down to its use of `readSourceOffset`: the cursor is
validated against the source before the query is built; only when it passes
is `definition` invoked (on a query environment for the computed offset). -/
def DefineModel (fileContent : Except String (List Nat)) (cursor : Int)
    (src : Source) (env : DefEnv) : Except DefErr DefinitionResult :=
  match readSourceOffset fileContent cursor src with
  | (_, _, some e) => .error (.other e)
  | (_, _, none) => definition env

/-- An identifier the parser left locally unresolved: no `id.Obj`, or an
object without a valid position — the fast path's fallthrough condition. -/
def localUnresolved (id : Ident) : Prop :=
  ∀ o, id.obj = some o → o.pos = 0

end godef

/-! Concrete instances used by the witnesses and counterexamples below. -/

/-- The identifier `Println` in `fmt.Println`, locally unresolved. -/
def qualPrintln : godef.Ident := { name := "Println", obj := none }

/-- The identifier `fmt` on the left of the selector, with no local object. -/
def pkgFmt : godef.Ident := { name := "fmt", obj := none }

/-- The AST path for a query on `Println` in `fmt.Println` inside a file that
imports `"fmt"`. -/
def c1path : List godef.Node :=
  [godef.Node.ident qualPrintln,
   godef.Node.selector (godef.Node.ident pkgFmt) qualPrintln,
   godef.Node.file [{ localName := none, pathValue := "\"fmt\"" }]]

/-- The same identifier as the type checker sees it. -/
def tcPrintln : godef.Ident := { name := "Println", obj := none }

/-- A query environment in which the fast path falls through on the
qualified-identifier shape, `findPackageMember` fails, and the type-checker
tier would succeed (its binding tables resolve the identifier). -/
def c1env : godef.DefEnv :=
  { fastQueryPos := .ok { path := c1path },
    findPackageMember := .error (.other "couldn't find declaration of Println in \"fmt\""),
    importQueryPackage := .ok "fmt",
    load := .ok (),
    parseQueryPos := .ok { path := [godef.Node.ident tcPrintln],
                           uses := [(tcPrintln, { kind := "func", name := "Println", pos := 42 })],
                           defs := [] } }

/-- A file cache configured with byte ceiling 10 (and initial size 0). -/
def c2cfg : lru.Config String cache.fileEntry Int := cache.File.lruConfig 0 10

/-- State after adding key "a" with a 1-byte entry: total 1, below the ceiling. -/
def c2s1 : lru.Cache String cache.fileEntry Int :=
  lru.Add c2cfg { entries := [], ext := 0 } "a" { data := [], modTime := 0, size := 1 }

/-- State after re-adding key "a" with a 100-byte entry: the existing-key
branch of `Add` replaces the value and returns without running the eviction
loop, leaving the total at 100, beyond the ceiling. -/
def c2s2 : lru.Cache String cache.fileEntry Int :=
  lru.Add c2cfg c2s1 "a" { data := [], modTime := 0, size := 100 }

/-- An unbounded file-cache configuration (`NewFile(0, 0)`: nothing installed). -/
def c5cfg : lru.Config String cache.fileEntry Int := cache.File.lruConfig 0 0

/-- A file cache holding one entry for "p" with modification time 5. -/
def c5cache : lru.Cache String cache.fileEntry Int :=
  { entries := [("p", { data := [1, 2], modTime := 5, size := 2 })], ext := 2 }

/-- The enumeration of an existing, readable, empty directory: stat succeeds,
`Readdirnames` returns no names and a nil error. -/
def c6fs : cache.DirFs :=
  { openErr := none, statRes := .ok { size := 0, modTime := 7 },
    names := [], namesErr := none, lstat := fun _ => .notExist }

/-- Three spawned workers: one cancelled before acquiring a gate slot, one
that parses a file declaring `func Foo`, one whose parse failed. -/
def c7inputs : List godef.WorkerInput :=
  [{ cancelledBeforeGate := true, parsed := none },
   { cancelledBeforeGate := false, parsed := some [godef.GoDecl.funcDecl false "Foo" 9] },
   { cancelledBeforeGate := false, parsed := none }]

/-- A directory cache holding one live entry for "/gone". -/
def c9dirCache : lru.Cache String cache.dirEntry Unit :=
  { entries := [("/gone", { ents := [{ name := "x.go", isDir := false }], modTime := 3 })],
    ext := () }

/-- A file cache holding one live entry for "/gone.go". -/
def c9fileCache : lru.Cache String cache.fileEntry Int :=
  { entries := [("/gone.go", { data := [1], modTime := 3, size := 1 })], ext := 1 }

/-- Unused filesystem oracles for the paths that return before any disk read. -/
def c9dirFs : cache.DirFs :=
  { openErr := some (.msg "unused"), statRes := .error (.msg "unused"),
    names := [], namesErr := none, lstat := fun _ => .notExist }

/-- Unused reload oracles for the file-cache path that returns the stat error. -/
def c9readFs : cache.ReadFs :=
  { openErr := some (.msg "unused"), statRes := .error (.msg "unused"),
    readRes := .error (.msg "unused") }

/-! Shared lemmas about the LRU container. -/

/-- A key found in `l.dropLast` is found with the same value in `l`. -/
theorem lookupVal_dropLast {K V : Type} [DecidableEq K] (k : K) :
    ∀ (l : List (K × V)) (x : V), lru.lookupVal k l.dropLast = some x →
      lru.lookupVal k l = some x := by
  intro l
  induction l with
  | nil => intro x h; simp [lru.lookupVal] at h
  | cons p rest ih =>
    intro x h
    cases rest with
    | nil => simp [List.dropLast, lru.lookupVal] at h
    | cons q tail =>
      rw [List.dropLast_cons₂] at h
      rcases p with ⟨k', v⟩
      by_cases hk : k' = k
      · rw [lru.lookupVal, if_pos hk] at h ⊢
        exact h
      · rw [lru.lookupVal, if_neg hk] at h ⊢
        exact ih x h

/-- `RemoveOldest` can only drop an entry; a surviving binding kept its value. -/
theorem lookupVal_RemoveOldest {K V E : Type} [DecidableEq K]
    (cfg : lru.Config K V E) (c : lru.Cache K V E) (k : K) (x : V)
    (h : lru.lookupVal k (lru.RemoveOldest cfg c).entries = some x) :
    lru.lookupVal k c.entries = some x := by
  unfold lru.RemoveOldest at h
  rcases hg : c.entries.getLast? with - | kv
  · rw [hg] at h; exact h
  · rw [hg] at h
    exact lookupVal_dropLast k c.entries x h

/-- `RemoveOldest` strictly shrinks a nonempty cache. -/
theorem length_RemoveOldest_lt {K V E : Type}
    (cfg : lru.Config K V E) (c : lru.Cache K V E)
    (h : 0 < c.entries.length) :
    (lru.RemoveOldest cfg c).entries.length < c.entries.length := by
  unfold lru.RemoveOldest
  rcases hg : c.entries.getLast? with - | kv
  · rw [List.getLast?_eq_none_iff] at hg
    simp [hg] at h
  · simp only [List.length_dropLast]
    omega

/-- The eviction loop stops only when the bound predicate is false or the
container has emptied. -/
theorem evictLoop_post {K V E : Type} (cfg : lru.Config K V E)
    (pred : lru.Cache K V E → Bool) :
    ∀ (n : Nat) (c : lru.Cache K V E), c.entries.length ≤ n →
      pred (lru.evictLoop cfg pred c) = false ∨ (lru.evictLoop cfg pred c).entries = [] := by
  intro n
  induction n with
  | zero =>
    intro c hle
    have hc : c.entries.length = 0 := Nat.le_zero.mp hle
    rw [lru.evictLoop, dif_neg (by omega : ¬(pred c = true ∧ 0 < c.entries.length))]
    right
    exact List.eq_nil_of_length_eq_zero hc
  | succ n ih =>
    intro c hle
    rw [lru.evictLoop]
    by_cases hcond : pred c = true ∧ 0 < c.entries.length
    · rw [dif_pos hcond]
      refine ih _ ?_
      have := length_RemoveOldest_lt cfg c hcond.2
      omega
    · rw [dif_neg hcond]
      by_cases hp : pred c = true
      · right
        have hz : ¬ 0 < c.entries.length := fun hl => hcond ⟨hp, hl⟩
        exact List.eq_nil_of_length_eq_zero (by omega)
      · left
        exact Bool.not_eq_true _ |>.mp hp

/-- A key found after the eviction loop was found with the same value before. -/
theorem evictLoop_lookup {K V E : Type} [DecidableEq K] (cfg : lru.Config K V E)
    (pred : lru.Cache K V E → Bool) (k : K) :
    ∀ (n : Nat) (c : lru.Cache K V E), c.entries.length ≤ n → ∀ x,
      lru.lookupVal k (lru.evictLoop cfg pred c).entries = some x →
      lru.lookupVal k c.entries = some x := by
  intro n
  induction n with
  | zero =>
    intro c hle x h
    rw [lru.evictLoop, dif_neg (by omega : ¬(pred c = true ∧ 0 < c.entries.length))] at h
    exact h
  | succ n ih =>
    intro c hle x h
    rw [lru.evictLoop] at h
    by_cases hcond : pred c = true ∧ 0 < c.entries.length
    · rw [dif_pos hcond] at h
      refine lookupVal_RemoveOldest cfg c k x (ih _ ?_ x h)
      have := length_RemoveOldest_lt cfg c hcond.2
      omega
    · rw [dif_neg hcond] at h
      exact h

/-- After `Add cfg c k v`, any value still stored under `k` is `v`. -/
theorem lookupVal_Add_self {K V E : Type} [DecidableEq K] (cfg : lru.Config K V E)
    (c : lru.Cache K V E) (k : K) (v : V) (x : V)
    (h : lru.lookupVal k (lru.Add cfg c k v).entries = some x) : x = v := by
  unfold lru.Add at h
  rcases hlk : lru.lookupVal k c.entries with - | old
  · rw [hlk] at h
    simp only at h
    rcases hmax : cfg.maxEntries with - | pred
    · rw [hmax] at h
      simp only [lru.lookupVal, if_pos rfl] at h
      exact (Option.some.inj h).symm
    · rw [hmax] at h
      simp only at h
      by_cases hp : pred { entries := (k, v) :: c.entries, ext := lru.callListener cfg.onAdded c.ext k v } = true
      · rw [if_pos hp] at h
        have h2 := evictLoop_lookup cfg pred k _ _ le_rfl x h
        have h3 := lookupVal_RemoveOldest cfg _ k x h2
        simp only [lru.lookupVal, if_pos rfl] at h3
        exact (Option.some.inj h3).symm
      · rw [if_neg hp] at h
        simp only [lru.lookupVal, if_pos rfl] at h
        exact (Option.some.inj h).symm
  · rw [hlk] at h
    simp only [lru.moveToFront, hlk, lru.setFirstValue, if_pos rfl, lru.lookupVal] at h
    exact (Option.some.inj h).symm

/-! C2: the bound-predicate postcondition of `Add`. -/

/-- C2 (amended): for every `Add` of a key not already present, with a
configured bound predicate, when `Add` returns either the predicate is false
or the container is empty. (The original claim, quantified over every `Add`,
fails on the existing-key branch; see the counterexample.) -/
theorem C2_add_new_key_evicts_until {K V E : Type} [DecidableEq K]
    (cfg : lru.Config K V E) (pred : lru.Cache K V E → Bool)
    (c : lru.Cache K V E) (k : K) (v : V)
    (hm : cfg.maxEntries = some pred)
    (hk : lru.lookupVal k c.entries = none) :
    pred (lru.Add cfg c k v) = false ∨ (lru.Add cfg c k v).entries = [] := by
  unfold lru.Add
  rw [hk]
  simp only [hm]
  by_cases hp : pred { entries := (k, v) :: c.entries, ext := lru.callListener cfg.onAdded c.ext k v } = true
  · rw [if_pos hp]
    exact evictLoop_post cfg pred _ _ le_rfl
  · rw [if_neg hp]
    left
    exact Bool.not_eq_true _ |>.mp hp

/-- C2 witness: a concrete new-key `Add` on the byte-bounded file cache. -/
theorem C2_add_new_key_evicts_until_witness :
    cache.File.maxEntries 10
        (lru.Add c2cfg { entries := [], ext := 0 } "b" { data := [], modTime := 0, size := 1 }) = false ∨
      (lru.Add c2cfg { entries := [], ext := 0 } "b" { data := [], modTime := 0, size := 1 }).entries = [] :=
  C2_add_new_key_evicts_until c2cfg (cache.File.maxEntries 10)
    { entries := [], ext := 0 } "b" { data := [], modTime := 0, size := 1 } rfl rfl

/-- C2 counterexample: an `Add` that overwrites an existing key fires the
listeners but skips the eviction loop, so it can return with the configured
bound predicate still true and the container nonempty. -/
theorem C2_counterexample :
    c2cfg.maxEntries = some (cache.File.maxEntries 10) ∧
      cache.File.maxEntries 10 c2s2 = true ∧ c2s2.entries ≠ [] := by
  refine ⟨rfl, rfl, ?_⟩
  decide

/-- Promoting a key does not change its binding. -/
theorem lookupVal_moveToFront {K V : Type} [DecidableEq K] (k : K) (l : List (K × V)) :
    lru.lookupVal k (lru.moveToFront k l) = lru.lookupVal k l := by
  unfold lru.moveToFront
  rcases hlk : lru.lookupVal k l with - | v
  · exact hlk
  · simp [lru.lookupVal]

/-! C4: size accounting and bound predicate of the file content cache. -/

/-- C4: the file cache's add listener increases the running total by the
entry's byte size and the evict listener decreases it; the bound predicate
holds exactly when the configured ceiling is positive and the running total
has reached it; and with a ceiling of 0 an `Add` of a fresh key never evicts
anything, whatever the initial `size` value made of the config. -/
theorem C4_file_cache_bound :
    (∀ (e : Int) (k : String) (v : cache.fileEntry),
      cache.File.onAdded e k v = e + v.size) ∧
    (∀ (e : Int) (k : String) (v : cache.fileEntry),
      cache.File.onEvicted e k v = e - v.size) ∧
    (∀ (entries : Int) (c : lru.Cache String cache.fileEntry Int),
      cache.File.maxEntries entries c = true ↔ 0 < entries ∧ entries ≤ c.ext) ∧
    (∀ (size0 : Int) (c : lru.Cache String cache.fileEntry Int)
        (k : String) (v : cache.fileEntry),
      lru.lookupVal k c.entries = none →
      (lru.Add (cache.File.lruConfig size0 0) c k v).entries = (k, v) :: c.entries) := by
  refine ⟨fun e k v => rfl, fun e k v => rfl, ?_, ?_⟩
  · intro entries c
    simp [cache.File.maxEntries]
  · intro size0 c k v hk
    unfold lru.Add
    rw [hk]
    unfold cache.File.lruConfig
    by_cases hs : (0 : Int) < size0 ∨ (0 : Int) < 0
    · rw [if_pos hs]
      simp [cache.File.maxEntries]
    · rw [if_neg hs]

/-- C4 witness: the listeners, predicate and ceiling-0 no-eviction property at
concrete inputs. -/
theorem C4_file_cache_bound_witness :
    cache.File.onAdded 0 "a" { data := [], modTime := 0, size := 5 } = 5 ∧
    cache.File.onEvicted 5 "a" { data := [], modTime := 0, size := 5 } = 0 ∧
    (cache.File.maxEntries 10 { entries := [], ext := 10 } = true ↔
      (0 : Int) < 10 ∧ (10 : Int) ≤ 10) ∧
    (lru.Add (cache.File.lruConfig 1 0) { entries := [], ext := 1 } "a"
        { data := [], modTime := 0, size := 5 }).entries =
      [("a", { data := [], modTime := 0, size := 5 })] :=
  ⟨C4_file_cache_bound.1 0 "a" { data := [], modTime := 0, size := 5 },
   C4_file_cache_bound.2.1 5 "a" { data := [], modTime := 0, size := 5 },
   C4_file_cache_bound.2.2.1 10 { entries := [], ext := 10 },
   C4_file_cache_bound.2.2.2 1 { entries := [], ext := 1 } "a"
     { data := [], modTime := 0, size := 5 } rfl⟩

/-! C5: the post-I/O re-validation step never regresses an entry's
modification time. -/

/-- C5: in the locked commit step of a reload, when an entry already exists
for the path, a strictly newer existing entry is kept (and its bytes
returned), otherwise the fresh entry replaces it; in either case — and under
any concurrent serialization of such commit steps, since each runs under the
cache lock — the entry stored for the path never changes to one with a
strictly older modification time. -/
theorem C5_modtime_never_regresses (cfg : lru.Config String cache.fileEntry Int)
    (c : lru.Cache String cache.fileEntry Int) (path : String) (b : List Nat)
    (fi : cache.FileInfo) (e : cache.fileEntry)
    (he : lru.lookupVal path c.entries = some e) :
    (∀ e', lru.lookupVal path (cache.File.readFileCommit cfg c path b fi).1.entries = some e' →
      e.modTime ≤ e'.modTime) ∧
    (fi.modTime < e.modTime →
      cache.File.readFileCommit cfg c path b fi = ((lru.Get c path).2, e.data) ∧
      lru.lookupVal path ((lru.Get c path).2).entries = some e) := by
  have hget1 : (lru.Get c path).1 = some e := by
    unfold lru.Get; rw [he]
  have hget2 : lru.lookupVal path ((lru.Get c path).2).entries = some e := by
    unfold lru.Get
    rw [he]
    simp only
    rw [lookupVal_moveToFront, he]
  have hcommit : cache.File.readFileCommit cfg c path b fi =
      if fi.modTime < e.modTime then ((lru.Get c path).2, e.data)
      else (lru.Add cfg (lru.Get c path).2 path
        { data := b, modTime := fi.modTime, size := fi.size }, b) := by
    simp only [cache.File.readFileCommit]
    rw [hget1]
  constructor
  · intro e' he'
    rw [hcommit] at he'
    by_cases hlt : fi.modTime < e.modTime
    · rw [if_pos hlt] at he'
      simp only at he'
      rw [hget2] at he'
      have he2 : e = e' := Option.some.inj he'
      rw [he2]
    · rw [if_neg hlt] at he'
      simp only at he'
      have he2 := lookupVal_Add_self cfg ((lru.Get c path).2) path
        { data := b, modTime := fi.modTime, size := fi.size } e' he'
      rw [he2]
      show e.modTime ≤ fi.modTime
      omega
  · intro hlt
    rw [hcommit, if_pos hlt]
    exact ⟨rfl, hget2⟩

/-- C5 witness: a reload whose stat reports an older modification time keeps
the existing, newer entry and returns its bytes. -/
theorem C5_modtime_never_regresses_witness :
    cache.File.readFileCommit c5cfg c5cache "p" [7] { size := 9, modTime := 3 } =
      ((lru.Get c5cache "p").2, [1, 2]) ∧
    lru.lookupVal "p" ((lru.Get c5cache "p").2).entries =
      some { data := [1, 2], modTime := 5, size := 2 } :=
  (C5_modtime_never_regresses c5cfg c5cache "p" [7] { size := 9, modTime := 3 }
    { data := [1, 2], modTime := 5, size := 2 } rfl).2 (by decide)

/-! C3: offset range checks. -/

/-- `readSourceOffset` rejects any cursor at or beyond the source's byte
length — including a cursor equal to the length — with "offset out of range". -/
theorem readSourceOffset_out_of_range (fc : Except String (List Nat)) (b : List Nat)
    (cursor : Int) (h0 : 0 ≤ cursor) (hlen : (b.length : Int) ≤ cursor) :
    godef.readSourceOffset fc cursor (.bytes b) = (b, 0, some "offset out of range") := by
  unfold godef.readSourceOffset
  rw [if_neg (by omega : ¬ cursor < 0)]
  show (if (none : Option String) = none ∧ (0 : Int) = 0 then
          if cursor < (b.length : Int) then (b, godef.byteOffset b cursor.toNat, none)
          else (b, 0, some "offset out of range")
        else (b, (0 : Int), (none : Option String))) = (b, 0, some "offset out of range")
  rw [if_pos (by simp : (none : Option String) = none ∧ (0 : Int) = 0)]
  rw [if_neg (by omega : ¬ cursor < (b.length : Int))]

/-- C3 (amended): the shared translator `fileOffsetToPos` accepts start/end
offsets up to and including the unit's byte size and rejects larger offsets;
but the `Define` entry point's source reader rejects every cursor greater
than or equal to the byte length — so a cursor equal to the length is
rejected there, before `definition` (and hence any tier) runs. -/
theorem C3_offset_bounds :
    (∀ base size s e : Int, 0 ≤ s → s ≤ size → 0 ≤ e → e ≤ size →
      godef.fileOffsetToPos base size s e = .ok (base + s, base + e)) ∧
    (∀ base size s e : Int, size < s →
      godef.fileOffsetToPos base size s e = .error "start position is beyond end of file") ∧
    (∀ base size s e : Int, 0 ≤ s → s ≤ size → size < e →
      godef.fileOffsetToPos base size s e = .error "end position is beyond end of file") ∧
    (∀ (fc : Except String (List Nat)) (b : List Nat) (cursor : Int),
      0 ≤ cursor → (b.length : Int) ≤ cursor →
      godef.readSourceOffset fc cursor (.bytes b) = (b, 0, some "offset out of range")) ∧
    (∀ (fc : Except String (List Nat)) (b : List Nat) (cursor : Int) (env : godef.DefEnv),
      0 ≤ cursor → (b.length : Int) ≤ cursor →
      godef.DefineModel fc cursor (.bytes b) env = .error (.other "offset out of range")) := by
  refine ⟨?_, ?_, ?_, readSourceOffset_out_of_range, ?_⟩
  · intro base size s e h1 h2 h3 h4
    unfold godef.fileOffsetToPos
    rw [if_pos ⟨h1, h2⟩, if_pos ⟨h3, h4⟩]
  · intro base size s e h1
    unfold godef.fileOffsetToPos
    rw [if_neg (by omega : ¬ (0 ≤ s ∧ s ≤ size))]
  · intro base size s e h1 h2 h3
    unfold godef.fileOffsetToPos
    rw [if_pos ⟨h1, h2⟩, if_neg (by omega : ¬ (0 ≤ e ∧ e ≤ size))]
  · intro fc b cursor env h0 hlen
    unfold godef.DefineModel
    rw [readSourceOffset_out_of_range fc b cursor h0 hlen]

/-- C3 witness: size-3 content; offset 3 accepted by the translator, offset 4
rejected by it, offset 3 rejected by the source reader. -/
theorem C3_offset_bounds_witness :
    godef.fileOffsetToPos 1 3 3 0 = .ok (4, 1) ∧
    godef.fileOffsetToPos 1 3 4 0 = .error "start position is beyond end of file" ∧
    godef.readSourceOffset (.ok []) 4 (.bytes [65, 66, 67]) =
      ([65, 66, 67], 0, some "offset out of range") :=
  ⟨C3_offset_bounds.1 1 3 3 0 (by decide) (by decide) (by decide) (by decide),
   C3_offset_bounds.2.1 1 3 4 0 (by decide),
   C3_offset_bounds.2.2.2.1 (.ok []) [65, 66, 67] 4 (by decide) (by decide)⟩

/-- C3 counterexample: for a unit of byte length `L = 3`, the translator
accepts offset `L`, but the `Define` entry point's source reader rejects a
cursor of `L` with "offset out of range" — contradicting the claim that an
offset equal to `L` is accepted by the `Define` entry point. -/
theorem C3_counterexample :
    godef.fileOffsetToPos 1 3 3 3 = .ok (4, 4) ∧
    godef.readSourceOffset (.ok []) 3 (.bytes [65, 66, 67]) =
      ([65, 66, 67], 0, some "offset out of range") ∧
    godef.DefineModel (.ok []) 3 (.bytes [65, 66, 67])
      { fastQueryPos := .error .noIdentifier,
        findPackageMember := .error .noIdentifier,
        importQueryPackage := .error .noIdentifier,
        load := .ok (),
        parseQueryPos := .error .noIdentifier } = .error (.other "offset out of range") :=
  ⟨rfl, rfl, rfl⟩

/-! C6: an empty directory is reported as `io.EOF`, not as a success. -/

/-- C6 (amended): listing an existing, readable directory whose enumeration
yields no names and no error does not succeed — `readdir` converts the empty
listing into `io.EOF`, and both `readDir` and (on a cache miss) `ReadDir`
propagate it as the returned error. -/
theorem C6_empty_dir_is_eof (cfg : lru.Config String cache.dirEntry Unit)
    (c : lru.Cache String cache.dirEntry Unit) (path : String)
    (stat : Except cache.IOErr cache.FileInfo) (fs : cache.DirFs)
    (fi : cache.FileInfo) (h1 : fs.openErr = none) (h2 : fs.statRes = .ok fi)
    (h3 : fs.names = []) (h4 : fs.namesErr = none) :
    cache.readdir fs.names fs.namesErr fs.lstat = ([], some .eof) ∧
    cache.Dir.readDir cfg c fs path = (c, .error .eof) ∧
    (lru.lookupVal path c.entries = none →
      cache.Dir.ReadDir cfg c path stat fs = some (c, .error .eof)) := by
  have hrd : cache.readdir fs.names fs.namesErr fs.lstat = ([], some .eof) := by
    rw [h3, h4]
    rfl
  have hrdd : cache.Dir.readDir cfg c fs path = (c, .error .eof) := by
    simp only [cache.Dir.readDir]
    rw [h1, h2, hrd]
  refine ⟨hrd, hrdd, ?_⟩
  intro hk
  simp only [cache.Dir.ReadDir]
  have hget1 : (lru.Get c path).1 = none := by
    unfold lru.Get; rw [hk]
  rw [hget1]
  simp only
  rw [hrdd]

/-- C6 witness: the empty-directory enumeration at a concrete cache state. -/
theorem C6_empty_dir_is_eof_witness :
    cache.readdir c6fs.names c6fs.namesErr c6fs.lstat = ([], some .eof) ∧
    cache.Dir.readDir (cache.Dir.lruConfig 4096) { entries := [], ext := () } c6fs "/empty" =
      ({ entries := [], ext := () }, .error .eof) ∧
    (lru.lookupVal "/empty" (({ entries := [], ext := () } :
        lru.Cache String cache.dirEntry Unit)).entries = none →
      cache.Dir.ReadDir (cache.Dir.lruConfig 4096) { entries := [], ext := () } "/empty"
        (.ok { size := 0, modTime := 7 }) c6fs =
        some ({ entries := [], ext := () }, .error .eof)) :=
  C6_empty_dir_is_eof (cache.Dir.lruConfig 4096) { entries := [], ext := () } "/empty"
    (.ok { size := 0, modTime := 7 }) c6fs { size := 0, modTime := 7 } rfl rfl rfl rfl

/-- C6 counterexample: `ReadDir` on an existing, readable, empty directory
returns the error `io.EOF` rather than an empty listing with a nil error. -/
theorem C6_counterexample :
    cache.Dir.ReadDir (cache.Dir.lruConfig 4096) { entries := [], ext := () } "/empty"
        (.ok { size := 0, modTime := 7 }) c6fs =
      some ({ entries := [], ext := () }, .error .eof) := rfl

/-! C7: every spawned worker sends exactly one value; the collector drains at
most one receive per candidate. -/

/-- Every path through the worker body performs exactly one send on `ch`. -/
theorem workerSends_length_one (w : godef.WorkerInput) (member : String) :
    (godef.workerSends w member).length = 1 := by
  unfold godef.workerSends
  rcases w with ⟨cb, parsed⟩
  cases cb
  · cases parsed with
    | none => rfl
    | some decls =>
      simp only
      cases godef.findInDecls member decls <;> rfl
  · rfl

/-- Summing a function that is 1 on every element counts the elements. -/
theorem sum_map_ones {α : Type} (g : α → Nat) :
    ∀ l : List α, (∀ x ∈ l, g x = 1) → (l.map g).sum = l.length := by
  intro l
  induction l with
  | nil => intro _; rfl
  | cons a t ih =>
    intro h
    simp only [List.map_cons, List.sum_cons, List.length_cons]
    rw [h a (List.mem_cons_self a t), ih (fun x hx => h x (List.mem_cons_of_mem a hx))]
    omega

/-- With at least `bound` messages available the collection loop never blocks
and performs at most `bound` receives. -/
theorem collect_terminates :
    ∀ (msgs : List (Option (godef.Tok × Nat))) (bound : Nat), bound ≤ msgs.length →
      ∃ r k, godef.collect msgs bound = some (r, k) ∧ k ≤ bound := by
  intro msgs
  induction msgs with
  | nil =>
    intro bound hb
    have hb0 : bound = 0 := Nat.le_zero.mp hb
    subst hb0
    exact ⟨none, 0, rfl, Nat.le_refl 0⟩
  | cons m rest ih =>
    intro bound hb
    cases bound with
    | zero => exact ⟨none, 0, rfl, Nat.le_refl 0⟩
    | succ b =>
      cases m with
      | some r => exact ⟨some r, 1, rfl, by omega⟩
      | none =>
        have hb' : b ≤ rest.length := by
          simp only [List.length_cons] at hb
          omega
        obtain ⟨r, k, hck, hk⟩ := ih b hb'
        refine ⟨r, k + 1, ?_, by omega⟩
        simp only [godef.collect, hck]

/-- C7: each spawned worker — cancelled before the gate, parse-failed,
successful, or empty-handed — sends exactly one (possibly nil) value; in any
arrival order the total message count equals the candidate count, which is the
channel's capacity, so the collector's bounded receive loop always completes
within that many receives. -/
theorem C7_every_worker_sends_once (inputs : List godef.WorkerInput) (member : String)
    (msgs : List (Option (godef.Tok × Nat)))
    (hperm : msgs.Perm ((inputs.map (fun w => godef.workerSends w member)).join)) :
    (∀ w ∈ inputs, (godef.workerSends w member).length = 1) ∧
    msgs.length = inputs.length ∧
    ∃ r k, godef.collect msgs inputs.length = some (r, k) ∧ k ≤ inputs.length := by
  have hlen : msgs.length = inputs.length := by
    rw [hperm.length_eq, List.length_join, List.map_map]
    exact sum_map_ones _ inputs (fun w _ => workerSends_length_one w member)
  exact ⟨fun w _ => workerSends_length_one w member, hlen,
    collect_terminates msgs inputs.length (by omega)⟩

/-- C7 witness: three workers (one cancelled, one that finds `func Foo`, one
with a failed parse) and one arrival order of their messages. -/
theorem C7_every_worker_sends_once_witness :
    (∀ w ∈ c7inputs, (godef.workerSends w "Foo").length = 1) ∧
    ([some (godef.Tok.fn, 9), none, none] : List (Option (godef.Tok × Nat))).length =
      c7inputs.length ∧
    ∃ r k, godef.collect [some (godef.Tok.fn, 9), none, none] c7inputs.length =
      some (r, k) ∧ k ≤ c7inputs.length :=
  C7_every_worker_sends_once c7inputs "Foo"
    [some (godef.Tok.fn, 9), none, none] (by decide)

/-! C8: the type-checker tier prefers "uses" over "defs" bindings. -/

/-- C8: the binding is looked up in `Uses` first and in `Defs` only when no
use binding exists; with no binding at all the query fails with the no-object
error; a binding with an invalid position fails with the built-in error, and
only a valid position produces a result. The final conjunct ties the lookup
to the full tier pipeline. -/
theorem C8_uses_preferred (uses defs : List (godef.Ident × godef.Object))
    (id : godef.Ident) :
    (∀ o, lru.lookupVal id uses = some o →
      godef.lookupIdentObj uses defs id =
        if o.pos = 0 then .error (.builtin o.name)
        else .ok { pos := o.pos, descr := godef.objectString o }) ∧
    (lru.lookupVal id uses = none → ∀ o, lru.lookupVal id defs = some o →
      godef.lookupIdentObj uses defs id =
        if o.pos = 0 then .error (.builtin o.name)
        else .ok { pos := o.pos, descr := godef.objectString o }) ∧
    (lru.lookupVal id uses = none → lru.lookupVal id defs = none →
      godef.lookupIdentObj uses defs id = .error .noObject) ∧
    (∀ (env : godef.DefEnv) (pkg : String) (qpos : godef.TCQPos) (id2 : godef.Ident),
      env.importQueryPackage = .ok pkg → env.load = .ok () →
      env.parseQueryPos = .ok qpos → godef.pathHeadIdent qpos.path = some id2 →
      godef.typeCheckTier env = godef.lookupIdentObj qpos.uses qpos.defs id2) := by
  refine ⟨?_, ?_, ?_, ?_⟩
  · intro o ho
    simp only [godef.lookupIdentObj]
    rw [ho]
  · intro hu o hd
    simp only [godef.lookupIdentObj]
    rw [hu, hd]
  · intro hu hd
    simp only [godef.lookupIdentObj]
    rw [hu, hd]
  · intro env pkg qpos id2 h1 h2 h3 h4
    simp only [godef.typeCheckTier]
    rw [h1, h2, h3]
    show (match godef.pathHeadIdent qpos.path with
          | none => Except.error godef.DefErr.noIdentifier
          | some id => godef.lookupIdentObj qpos.uses qpos.defs id) =
        godef.lookupIdentObj qpos.uses qpos.defs id2
    rw [h4]

/-- C8 witness: a node bound in both tables resolves through `Uses`, and an
identifier bound in neither fails with the no-object error. -/
theorem C8_uses_preferred_witness :
    godef.lookupIdentObj
        [({ name := "x", obj := none }, { kind := "var", name := "x", pos := 7 })]
        [({ name := "x", obj := none }, { kind := "field", name := "x", pos := 9 })]
        { name := "x", obj := none } =
      .ok { pos := 7, descr := "var x" } ∧
    godef.lookupIdentObj [] [] { name := "x", obj := none } = .error .noObject :=
  ⟨(C8_uses_preferred
      [({ name := "x", obj := none }, { kind := "var", name := "x", pos := 7 })]
      [({ name := "x", obj := none }, { kind := "field", name := "x", pos := 9 })]
      { name := "x", obj := none }).1 { kind := "var", name := "x", pos := 7 } rfl,
   (C8_uses_preferred [] [] { name := "x", obj := none }).2.2.1 rfl rfl⟩

/-! C9: a failing stat on the directory cache's hit path dereferences the nil
`FileInfo`; the file cache's hit path guards and returns the error. -/

/-- C9: with a live cache entry, `Dir.ReadDir` evaluates
`fi.ModTime()` on the nil stat result and panics (modelled as `none`),
for every filesystem oracle and error; in the analogous situation
`File.OpenFile` sees `fileEntry.same` reject the nil stat result, evicts the
entry, and returns the stat error. -/
theorem C9_dir_hit_nil_stat_panics :
    (∀ (cfg : lru.Config String cache.dirEntry Unit)
        (c : lru.Cache String cache.dirEntry Unit) (path : String)
        (fs : cache.DirFs) (e : cache.dirEntry) (err : cache.IOErr),
      lru.lookupVal path c.entries = some e →
      cache.Dir.ReadDir cfg c path (.error err) fs = none) ∧
    (∀ (cfg : lru.Config String cache.fileEntry Int)
        (c : lru.Cache String cache.fileEntry Int) (path : String)
        (rfs : cache.ReadFs) (e : cache.fileEntry) (err : cache.IOErr),
      lru.lookupVal path c.entries = some e →
      cache.File.OpenFile cfg c path (.error err) rfs =
        some (lru.Remove cfg (lru.Get c path).2 path, .error err)) := by
  constructor
  · intro cfg c path fs e err he
    have hget1 : (lru.Get c path).1 = some e := by
      unfold lru.Get; rw [he]
    simp only [cache.Dir.ReadDir]
    rw [hget1]
  · intro cfg c path rfs e err he
    have hget1 : (lru.Get c path).1 = some e := by
      unfold lru.Get; rw [he]
    simp only [cache.File.OpenFile]
    rw [hget1]
    rfl

/-- C9 witness: a deleted directory with a live cache entry panics; a deleted
file with a live cache entry returns the stat error. -/
theorem C9_dir_hit_nil_stat_panics_witness :
    cache.Dir.ReadDir (cache.Dir.lruConfig 4096) c9dirCache "/gone"
        (.error (.msg "no such file or directory")) c9dirFs = none ∧
    cache.File.OpenFile (cache.File.lruConfig 0 0) c9fileCache "/gone.go"
        (.error (.msg "no such file or directory")) c9readFs =
      some (lru.Remove (cache.File.lruConfig 0 0) (lru.Get c9fileCache "/gone.go").2 "/gone.go",
        .error (.msg "no such file or directory")) :=
  ⟨C9_dir_hit_nil_stat_panics.1 (cache.Dir.lruConfig 4096) c9dirCache "/gone" c9dirFs
      { ents := [{ name := "x.go", isDir := false }], modTime := 3 }
      (.msg "no such file or directory") rfl,
   C9_dir_hit_nil_stat_panics.2 (cache.File.lruConfig 0 0) c9fileCache "/gone.go" c9readFs
      { data := [1], modTime := 3, size := 1 }
      (.msg "no such file or directory") rfl⟩

/-! C10: `reader.WriteTo` discards its computed count and error. -/

/-- C10: with unread bytes remaining, `WriteTo` returns `-1` and a nil error
whatever count the destination writer accepted and whatever error it reported,
while advancing the cursor by the written count; with no unread bytes it
returns `(0, nil)` and leaves the cursor alone. -/
theorem C10_writeTo_returns_minus_one (r : cache.reader) (m : Nat)
    (werr : Option cache.IOErr) :
    ((r.s.length : Int) ≤ r.i →
      cache.reader.WriteTo r m werr = (r, .ret 0 none)) ∧
    (r.i < (r.s.length : Int) → m ≤ (r.s.drop r.i.toNat).length →
      cache.reader.WriteTo r m werr =
        ({ s := r.s, i := r.i + (m : Int) }, .ret (-1) none)) := by
  constructor
  · intro hle
    unfold cache.reader.WriteTo
    rw [if_pos hle]
  · intro hlt hm
    simp only [cache.reader.WriteTo]
    rw [if_neg (by omega : ¬ (r.s.length : Int) ≤ r.i),
      if_neg (by omega : ¬ (r.s.drop r.i.toNat).length < m)]

/-- C10 witness: a short write of 1 byte out of 2 remaining, with a reported
error, still yields `(-1, nil)` and a cursor advanced by 1; an exhausted
cursor yields `(0, nil)`. -/
theorem C10_writeTo_returns_minus_one_witness :
    cache.reader.WriteTo { s := [1, 2, 3], i := 1 } 1 (some .shortWrite) =
      ({ s := [1, 2, 3], i := 2 }, .ret (-1) none) ∧
    cache.reader.WriteTo { s := [1, 2, 3], i := 3 } 0 none =
      ({ s := [1, 2, 3], i := 3 }, .ret 0 none) :=
  ⟨(C10_writeTo_returns_minus_one { s := [1, 2, 3], i := 1 } 1 (some .shortWrite)).2
      (by decide) (by decide),
   (C10_writeTo_returns_minus_one { s := [1, 2, 3], i := 3 } 0 none).1 (by decide)⟩

/-! C1: tier ordering of the resolution coordinator. -/

/-- C1 (amended): the coordinator tries the fast path, then — only when the
fast-path identifier is locally unresolved and matches the
qualified-identifier shape — the cross-unit member locator, then — only when
the shape does not match — the whole-program type check. The first success
wins, but failures of earlier stages are surfaced directly: a failed query
parse, a non-identifier query node, and any `findPackageMember` error are
returned to the caller, and in the last case the type-checker tier is never
attempted. -/
theorem C1_tier_priority (env : godef.DefEnv) :
    (∀ e, env.fastQueryPos = .error e → godef.definition env = .error e) ∧
    (∀ qpos, env.fastQueryPos = .ok qpos →
      (godef.pathHeadIdent qpos.path = none →
        godef.definition env = .error .noIdentifier) ∧
      (∀ id, godef.pathHeadIdent qpos.path = some id →
        (∀ obj, id.obj = some obj → obj.pos ≠ 0 →
          godef.definition env = .ok { pos := obj.pos, descr := obj.kind ++ " " ++ obj.name }) ∧
        (godef.localUnresolved id →
          (godef.packageForQualIdent qpos.path id ≠ "" →
            (∀ e, env.findPackageMember = .error e → godef.definition env = .error e) ∧
            (∀ r, env.findPackageMember = .ok r →
              godef.definition env =
                .ok { pos := r.2,
                      descr := godef.tokString r.1 ++ " " ++
                        godef.packageForQualIdent qpos.path id ++ "." ++ id.name })) ∧
          (godef.packageForQualIdent qpos.path id = "" →
            godef.definition env = godef.typeCheckTier env)))) := by
  constructor
  · intro e he
    unfold godef.definition
    rw [he]
  · intro qpos hq
    constructor
    · intro hid
      unfold godef.definition
      rw [hq]
      simp only
      rw [hid]
    · intro id hid
      constructor
      · intro obj hobj hpos
        unfold godef.definition
        rw [hq]
        simp only
        rw [hid]
        simp only
        rw [hobj]
        simp only
        rw [if_pos hpos]
      · intro hl
        have hfall : godef.definition env = godef.tryQualIdent env qpos id := by
          unfold godef.definition
          rw [hq]
          simp only
          rw [hid]
          simp only
          rcases hobj : id.obj with - | o
          · rfl
          · have hz := hl o hobj
            simp only
            rw [if_neg (by omega : ¬ o.pos ≠ 0)]
        constructor
        · intro hne
          constructor
          · intro e hfe
            rw [hfall]
            simp only [godef.tryQualIdent]
            rw [if_pos hne, hfe]
          · intro r hfr
            rw [hfall]
            simp only [godef.tryQualIdent]
            rw [if_pos hne, hfr]
        · intro heq
          rw [hfall]
          simp only [godef.tryQualIdent]
          rw [if_neg (fun hne => hne heq)]

/-- C1 witness: at `c1env` the fast path falls through on the qualified shape
and the locator's failure is the value `definition` returns. -/
theorem C1_tier_priority_witness :
    godef.definition c1env = .error (.other "couldn't find declaration of Println in \"fmt\"") :=
  (((((C1_tier_priority c1env).2 { path := c1path } rfl).2 qualPrintln rfl).2
      (fun o ho => nomatch ho)).1 (by decide)).1
    (.other "couldn't find declaration of Println in \"fmt\"") rfl

/-- C1 counterexample: a query where no tier before the last succeeds, the
whole-program tier would succeed, and yet the coordinator returns the
cross-unit locator's failure — so a non-final tier's failure is surfaced and
the result of a succeeding tier is not returned. -/
theorem C1_counterexample :
    godef.definition c1env = .error (.other "couldn't find declaration of Println in \"fmt\"") ∧
    godef.typeCheckTier c1env = .ok { pos := 42, descr := "func Println" } := by
  constructor
  · rfl
  · rfl
